import Mathlib

/-!
Verification development for the varlink command-line client
(`main.go`).  The command handlers `varlinkCall`, `varlinkHelp` and
`varlinkInfo`, the global/subcommand flag parsing of Go's `flag`
package as the program uses it, and the observable effects (connection
events, output messages per stream, exit code) are shallowly embedded.
Strings are modelled as `List Char`; the external transport
(`varlink.NewConnection`, `varlink.NewBridge`, `Connection.Send`, the
reply accessor, `GetInterfaceDescription`, `GetInfo`) is an opaque
collaborator, modelled by a `World` of outcomes for each of its
operations, exactly as the spec declares it out of scope.
-/

namespace VarlinkCmd

/-- Strings are modelled as lists of characters. -/
abbrev Str := List Char

/-! ## Target resolver: `strings.LastIndex(uri, "/")` and the split
    at lines 85-93 / 192-207 of `main.go`. -/

/-- Index of the last occurrence of `c`, mirroring `strings.LastIndex`
(which returns -1, modelled as `none`, when absent). -/
def lastIndexOf (c : Char) : Str → Option Nat
  | [] => none
  | x :: xs =>
    match lastIndexOf c xs with
    | some i => some (i + 1)
    | none => if x = c then some 0 else none

/-- The address split of `varlinkCall`/`varlinkHelp`:
`li := strings.LastIndex(uri, "/")`, address `uri[:li]`,
reference `uri[li+1:]`; `none` when the uri has no slash. -/
def splitLast (s : Str) : Option (Str × Str) :=
  match lastIndexOf '/' s with
  | none => none
  | some i => some (s.take i, s.drop (i + 1))

/-! ## JSON validity, modelling the validation performed by
    `json.Unmarshal` on the parameter string (line 108) and on the
    error-parameter payload (line 144). -/

/-- JSON whitespace as accepted by `encoding/json`. -/
def isWsChar (c : Char) : Bool := c = ' ' ∨ c = '\t' ∨ c = '\n' ∨ c = '\r'

def skipWs : Str → Str
  | [] => []
  | c :: cs => if isWsChar c then skipWs cs else c :: cs

def isHexDigitCh (c : Char) : Bool :=
  c.isDigit ∨ ('a' ≤ c ∧ c ≤ 'f') ∨ ('A' ≤ c ∧ c ≤ 'F')

/-- Consume the body of a JSON string after its opening quote. -/
def parseStrBody : Str → Option Str
  | [] => none
  | c :: cs =>
    if c = '"' then some cs
    else if c = '\\' then
      match cs with
      | [] => none
      | e :: cs2 =>
        if e = 'u' then
          match cs2 with
          | a :: b :: c3 :: d :: cs3 =>
            if isHexDigitCh a ∧ isHexDigitCh b ∧ isHexDigitCh c3 ∧ isHexDigitCh d then
              parseStrBody cs3
            else none
          | _ => none
        else if e ∈ ['"', '\\', '/', 'b', 'f', 'n', 'r', 't'] then parseStrBody cs2
        else none
    else if 32 ≤ c.val then parseStrBody cs
    else none

def eatDigits : Str → Str
  | [] => []
  | c :: cs => if c.isDigit then eatDigits cs else c :: cs

/-- Optional fraction part of a JSON number. -/
def parseFrac : Str → Option Str
  | '.' :: c :: cs => if c.isDigit then some (eatDigits (c :: cs)) else none
  | '.' :: [] => none
  | s => some s

/-- Optional exponent part of a JSON number. -/
def parseExp : Str → Option Str
  | [] => some []
  | c :: cs =>
    if c = 'e' ∨ c = 'E' then
      match cs with
      | [] => none
      | d :: ds =>
        if d = '+' ∨ d = '-' then
          match ds with
          | [] => none
          | x :: xs => if x.isDigit then some (eatDigits (x :: xs)) else none
        else if d.isDigit then some (eatDigits (d :: ds)) else none
    else some (c :: cs)

/-- Integer part: `0` or a nonzero digit followed by digits. -/
def parseIntPart : Str → Option Str
  | [] => none
  | c :: cs =>
    if c = '0' then some cs
    else if c.isDigit then some (eatDigits cs)
    else none

def parseNum (s : Str) : Option Str :=
  let s1 := match s with
    | '-' :: cs => cs
    | _ => s
  match parseIntPart s1 with
  | none => none
  | some r1 =>
    match parseFrac r1 with
    | none => none
    | some r2 => parseExp r2

def eatLit (lit : Str) (s : Str) : Option Str :=
  if s.take lit.length = lit then some (s.drop lit.length) else none

mutual

/-- Consume one JSON value, returning the remainder. -/
def parseVal : Nat → Str → Option Str
  | 0, _ => none
  | fuel + 1, s =>
    match skipWs s with
    | [] => none
    | c :: cs =>
      if c = '"' then parseStrBody cs
      else if c = '\x7b' then parseObjBody fuel cs
      else if c = '[' then parseArrBody fuel cs
      else if c = 't' then eatLit (("rue").data) cs
      else if c = 'f' then eatLit (("alse").data) cs
      else if c = 'n' then eatLit (("ull").data) cs
      else if c = '-' ∨ c.isDigit then parseNum (c :: cs)
      else none

/-- After an opening brace: empty object or first member. -/
def parseObjBody : Nat → Str → Option Str
  | 0, _ => none
  | fuel + 1, s =>
    match skipWs s with
    | [] => none
    | c :: cs =>
      if c = '\x7d' then some cs
      else if c = '"' then
        match parseStrBody cs with
        | none => none
        | some r1 =>
          match skipWs r1 with
          | ':' :: r2 =>
            match parseVal fuel r2 with
            | none => none
            | some r3 => parseObjRest fuel r3
          | _ => none
      else none

/-- After a member: a comma and another member, or the closing brace. -/
def parseObjRest : Nat → Str → Option Str
  | 0, _ => none
  | fuel + 1, s =>
    match skipWs s with
    | ',' :: cs =>
      match skipWs cs with
      | '"' :: cs2 =>
        match parseStrBody cs2 with
        | none => none
        | some r1 =>
          match skipWs r1 with
          | ':' :: r2 =>
            match parseVal fuel r2 with
            | none => none
            | some r3 => parseObjRest fuel r3
          | _ => none
      | _ => none
    | '\x7d' :: cs => some cs
    | _ => none

/-- After an opening bracket: empty array or first element. -/
def parseArrBody : Nat → Str → Option Str
  | 0, _ => none
  | fuel + 1, s =>
    match skipWs s with
    | ']' :: cs => some cs
    | _ =>
      match parseVal fuel s with
      | none => none
      | some r1 => parseArrRest fuel r1

/-- After an element: a comma and another element, or the closing bracket. -/
def parseArrRest : Nat → Str → Option Str
  | 0, _ => none
  | fuel + 1, s =>
    match skipWs s with
    | ',' :: cs =>
      match parseVal fuel cs with
      | none => none
      | some r1 => parseArrRest fuel r1
    | ']' :: cs => some cs
    | _ => none

end

/-- Whether `json.Unmarshal` accepts the byte string as JSON: one value,
optionally surrounded by whitespace. -/
def jsonValid (s : Str) : Bool :=
  match parseVal (s.length + 1) s with
  | some r => skipWs r = ([] : Str)
  | none => false

/-- Whether the payload is a JSON object, i.e. whether
`json.Unmarshal` into a `map[string]interface{}` populates the map. -/
def jsonValidObj (s : Str) : Bool :=
  jsonValid s &&
    (match skipWs s with
     | c :: _ => c = '\x7b'
     | [] => false)

/-! ## Observable behaviour: events on the connection, output messages
    per stream, exit code. -/

/-- External-transport events performed by a run, in order. -/
inductive Ev
  | bridgeConnect (cmd : Str)
  | dial (address : Str)
  | send (method : Str) (params : Option Str) (flags : Nat)
  | recvCall
  | getDesc (iface : Str)
  | getInfo
deriving DecidableEq, Repr

/-- The two output streams: primary (stdout) and diagnostic (stderr). -/
inductive Fd
  | out
  | err
deriving DecidableEq, Repr

/-- Output messages, one constructor per distinct print site of
`main.go`.  `callFailed` is the error name printed in the attention
(red) colour at line 140; `rendered` is the colorjson formatter output
of a decoded payload (lines 145-146 and 153-154), `none` standing for
the empty/nil map. -/
inductive Msg
  | usage
  | flagNotDefined (name : Str)
  | badFlagArg (arg : Str)
  | invalidBoolValue (name value : Str)
  | missingValue (name : Str)
  | noAddress
  | invalidAddress (uri : Str)
  | cannotConnectBridge (cmd : Str)
  | cannotConnect (addr : Str)
  | cannotParseParams
  | errorCalling (method : Str)
  | callFailed (name : Str)
  | rendered (payload : Option Str)
  | descOut (text : Str)
  | infoOut
  | cannotGetDesc (iface : Str)
  | cannotGetInfo (addr : Str)
deriving DecidableEq, Repr

/-- The observable result of one command run. -/
structure RunRes where
  trace : List Ev
  outs : List (Fd × Msg)
  exit : Nat
deriving DecidableEq, Repr

/-- Outcome of the reply accessor `recv` (line 128): a decoded reply,
a structured `*varlink.Error` carrying a name and an optional raw
parameter payload (a possibly-nil `*json.RawMessage`), or any other
transport error. -/
inductive RecvRes
  | ok (payload : Str)
  | verr (name : Str) (params : Option Str)
  | other (cause : Str)

/-- Outcomes of the external transport operations for one process run:
whether `NewBridge`/`NewConnection` succeed, whether `Send` succeeds,
what the reply accessor resolves to, what `GetInterfaceDescription`
and `GetInfo` return, and whether the TERM environment variable is
non-empty. -/
structure World where
  bridgeOk : Bool
  dialOk : Str → Bool
  sendOk : Bool
  recvRes : RecvRes
  getDesc : Option Str
  getInfoOk : Bool
  termSet : Bool

/-- The `varlink.Oneway` call-flag bit of the transport library. -/
def OnewayFlag : Nat := 2

/-! ## `varlinkCall` (lines 49-155), after subcommand flag parsing. -/

/-- Lines 114-155: compute the flags, send, invoke the reply accessor
unconditionally, then render a reply or unwrap a structured error. -/
def afterParams (w : World) (oneway : Bool) (tr : List Ev) (methodName : Str)
    (params : Option Str) : RunRes :=
  let fl : Nat := if oneway then OnewayFlag else 0
  let tr2 := tr ++ [Ev.send methodName params fl]
  if w.sendOk then
    let tr3 := tr2 ++ [Ev.recvCall]
    match w.recvRes with
    | RecvRes.ok v => ⟨tr3, [(Fd.out, Msg.rendered (some v))], 0⟩
    | RecvRes.verr name p =>
      ⟨tr3,
        (Fd.err, Msg.callFailed name) ::
          (match p with
           | none => []
           | some raw =>
             [(Fd.err, Msg.rendered (if jsonValidObj raw then some raw else none))]),
        2⟩
    | RecvRes.other _ => ⟨tr3, [(Fd.err, Msg.errorCalling methodName)], 2⟩
  else ⟨tr2, [(Fd.err, Msg.errorCalling methodName)], 2⟩

/-- Lines 101-112: an empty parameter string becomes absent (nil)
parameters; a non-empty one must be valid JSON or the run fails with
exit 2 before the send. -/
def afterConn (w : World) (oneway : Bool) (tr : List Ev) (methodName arg1 : Str) : RunRes :=
  if arg1 = [] then afterParams w oneway tr methodName none
  else if jsonValid arg1 then afterParams w oneway tr methodName (some arg1)
  else ⟨tr, [(Fd.err, Msg.cannotParseParams)], 2⟩

/-- Lines 66-155 of `varlinkCall`: the body after flag parsing, taking
the two positional arguments. -/
def callBody (bridge : Str) (w : World) (oneway : Bool) (arg0 arg1 : Str) : RunRes :=
  if bridge ≠ [] then
    if w.bridgeOk then afterConn w oneway [Ev.bridgeConnect bridge] arg0 arg1
    else ⟨[Ev.bridgeConnect bridge], [(Fd.err, Msg.cannotConnectBridge bridge)], 2⟩
  else if arg0 = [] then ⟨[], [(Fd.err, Msg.usage)], 1⟩
  else
    match splitLast arg0 with
    | none => ⟨[], [(Fd.err, Msg.invalidAddress arg0)], 2⟩
    | some (address, m) =>
      if w.dialOk address then afterConn w oneway [Ev.dial address] m arg1
      else ⟨[Ev.dial address], [(Fd.err, Msg.cannotConnect address)], 2⟩

/-! ## `varlinkHelp` (lines 157-216) and `varlinkInfo` (lines 218-273). -/

/-- Lines 209-215: fetch and print the interface description. -/
def afterHelpConn (w : World) (tr : List Ev) (iface : Str) : RunRes :=
  let tr2 := tr ++ [Ev.getDesc iface]
  match w.getDesc with
  | some d => ⟨tr2, [(Fd.out, Msg.descOut d)], 0⟩
  | none => ⟨tr2, [(Fd.err, Msg.cannotGetDesc iface)], 2⟩

/-- The body of `varlinkHelp` after flag parsing. -/
def helpBody (bridge : Str) (w : World) (arg0 : Str) : RunRes :=
  if bridge ≠ [] then
    if w.bridgeOk then afterHelpConn w [Ev.bridgeConnect bridge] arg0
    else ⟨[Ev.bridgeConnect bridge], [(Fd.err, Msg.cannotConnectBridge bridge)], 2⟩
  else if arg0 = [] then ⟨[], [(Fd.err, Msg.noAddress), (Fd.err, Msg.usage)], 1⟩
  else
    match splitLast arg0 with
    | none => ⟨[], [(Fd.err, Msg.invalidAddress arg0)], 2⟩
    | some (address, iface) =>
      if w.dialOk address then afterHelpConn w [Ev.dial address] iface
      else ⟨[Ev.dial address], [(Fd.err, Msg.cannotConnect address)], 2⟩

/-- Lines 259-272: fetch and print the service info; on failure the
display address appears in the diagnostic message. -/
def afterInfoConn (w : World) (tr : List Ev) (address : Str) : RunRes :=
  let tr2 := tr ++ [Ev.getInfo]
  if w.getInfoOk then ⟨tr2, [(Fd.out, Msg.infoOut)], 0⟩
  else ⟨tr2, [(Fd.err, Msg.cannotGetInfo address)], 2⟩

/-- The body of `varlinkInfo` after flag parsing: with a bridge the
display address is the literal `bridge:` followed by the bridge
command (line 243); otherwise the whole positional argument is the
address, unsplit. -/
def infoBody (bridge : Str) (w : World) (arg0 : Str) : RunRes :=
  if bridge ≠ [] then
    if w.bridgeOk then afterInfoConn w [Ev.bridgeConnect bridge] ((("bridge:").data) ++ bridge)
    else ⟨[Ev.bridgeConnect bridge], [(Fd.err, Msg.cannotConnectBridge bridge)], 2⟩
  else if arg0 = [] then ⟨[], [(Fd.err, Msg.noAddress), (Fd.err, Msg.usage)], 1⟩
  else if w.dialOk arg0 then afterInfoConn w [Ev.dial arg0] arg0
  else ⟨[Ev.dial arg0], [(Fd.err, Msg.cannotConnect arg0)], 2⟩

/-! ## Go `flag` parsing as the program configures it.

Each `FlagSet` here has `ExitOnError` and a `Usage` that calls
`printUsage`, which prints to stderr and calls `os.Exit(1)`; so every
parse failure ends the process with exit code 1 after printing the
failure message (if any) and the usage text. -/

/-- Classification of one command-line token by `flag.(*FlagSet).parseOne`. -/
inductive FlagTok
  | notFlag
  | terminator
  | badTok (arg : Str)
  | named (name : Str) (value : Option Str)
deriving DecidableEq, Repr

/-- Split at the first `=` (Go scans for `=` from index 1 of the name). -/
def splitEq : Str → Str × Option Str
  | [] => ([], none)
  | c :: cs =>
    if c = '=' then ([], some cs)
    else
      let p := splitEq cs
      (c :: p.1, p.2)

/-- Go rejects an extracted flag name that is empty or begins with
`-` or `=` as bad syntax. -/
def badName (n : Str) : Bool :=
  match n with
  | [] => true
  | c :: _ => c = '-' ∨ c = '='

def mkNamed (s : Str) (nv : Str × Option Str) : FlagTok :=
  if badName nv.1 then FlagTok.badTok s else FlagTok.named nv.1 nv.2

/-- Token classification of `parseOne`: a token shorter than two
characters or not starting with `-` ends flag parsing; `--` is the
terminator; otherwise one or two minuses are stripped and the name is
split at the first `=`. -/
def flagTok (s : Str) : FlagTok :=
  match s with
  | [] => FlagTok.notFlag
  | [_] => FlagTok.notFlag
  | c1 :: c2 :: rest =>
    if c1 ≠ '-' then FlagTok.notFlag
    else if c2 = '-' then
      if rest = [] then FlagTok.terminator
      else mkNamed s (splitEq rest)
    else mkNamed s (splitEq (c2 :: rest))

/-- Model of `strconv.ParseBool`, used for an explicit `=value` on a boolean flag. -/
def parseBoolLit (v : Str) : Option Bool :=
  if v ∈ [("1").data, ("t").data, ("T").data, ("true").data, ("TRUE").data, ("True").data] then
    some true
  else if v ∈ [("0").data, ("f").data, ("F").data, ("false").data, ("FALSE").data,
      ("False").data] then
    some false
  else none

/-- Flag parsing of the `call` subcommand (lines 53-60).  The flag set
registers two boolean flags, one under the literal name `-oneway`
(line 54) and one under `help` (line 56).  `h` triggers Go's built-in
help special case; any other unknown name is a
flag-provided-but-not-defined failure. -/
def parseCallAux : Bool → Bool → List Str → Except Msg (Bool × Bool × List Str)
  | ow, hp, [] => Except.ok (ow, hp, [])
  | ow, hp, s :: rest =>
    match flagTok s with
    | FlagTok.notFlag => Except.ok (ow, hp, s :: rest)
    | FlagTok.terminator => Except.ok (ow, hp, rest)
    | FlagTok.badTok a => Except.error (Msg.badFlagArg a)
    | FlagTok.named n v =>
      if n = ("-oneway").data then
        match v with
        | none => parseCallAux true hp rest
        | some val =>
          match parseBoolLit val with
          | some b => parseCallAux b hp rest
          | none => Except.error (Msg.invalidBoolValue n val)
      else if n = ("help").data then
        match v with
        | none => parseCallAux ow true rest
        | some val =>
          match parseBoolLit val with
          | some b => parseCallAux ow b rest
          | none => Except.error (Msg.invalidBoolValue n val)
      else if n = ("h").data then Except.error Msg.usage
      else Except.error (Msg.flagNotDefined n)

/-- Flag parsing of the `help` and `info` subcommands, which register
only the boolean `help` flag (lines 162 and 222). -/
def parseSubAux : Bool → List Str → Except Msg (Bool × List Str)
  | hp, [] => Except.ok (hp, [])
  | hp, s :: rest =>
    match flagTok s with
    | FlagTok.notFlag => Except.ok (hp, s :: rest)
    | FlagTok.terminator => Except.ok (hp, rest)
    | FlagTok.badTok a => Except.error (Msg.badFlagArg a)
    | FlagTok.named n v =>
      if n = ("help").data then
        match v with
        | none => parseSubAux true rest
        | some val =>
          match parseBoolLit val with
          | some b => parseSubAux b rest
          | none => Except.error (Msg.invalidBoolValue n val)
      else if n = ("h").data then Except.error Msg.usage
      else Except.error (Msg.flagNotDefined n)

/-- The process result of a flag-parse failure: the failure message
(absent for the built-in help case), the usage text, exit code 1. -/
def flagFailRes (m : Msg) : RunRes :=
  if m = Msg.usage then ⟨[], [(Fd.err, Msg.usage)], 1⟩
  else ⟨[], [(Fd.err, m), (Fd.err, Msg.usage)], 1⟩

/-- The result of an explicit `--help`: usage text, exit code 1. -/
def usageRes : RunRes := ⟨[], [(Fd.err, Msg.usage)], 1⟩

/-- Run of `varlinkCall`: parse the subcommand flags, then run the body on
the positional arguments (`Arg(0)`, `Arg(1)`, empty when absent). -/
def callRun (bridge : Str) (w : World) (args : List Str) : RunRes :=
  match parseCallAux false false args with
  | Except.error m => flagFailRes m
  | Except.ok (ow, hp, rest) =>
    if hp then usageRes
    else callBody bridge w ow (rest.getD 0 []) (rest.getD 1 [])

/-- Run of `varlinkHelp`: parse the subcommand flags, then run the body. -/
def helpRun (bridge : Str) (w : World) (args : List Str) : RunRes :=
  match parseSubAux false args with
  | Except.error m => flagFailRes m
  | Except.ok (hp, rest) =>
    if hp then usageRes
    else helpBody bridge w (rest.getD 0 [])

/-- Run of `varlinkInfo`: parse the subcommand flags, then run the body. -/
def infoRun (bridge : Str) (w : World) (args : List Str) : RunRes :=
  match parseSubAux false args with
  | Except.error m => flagFailRes m
  | Except.ok (hp, rest) =>
    if hp then usageRes
    else infoBody bridge w (rest.getD 0 [])

/-! ## `main` (lines 275-309): global flags, colour mode, dispatch. -/

/-- The global configuration filled by `flag.Parse` (lines 282-289). -/
structure GlobalCfg where
  debug : Bool
  bridge : Str
  colorMode : Str

/-- Defaults: debug off, empty bridge, colour mode `auto`. -/
def cfg0 : GlobalCfg := ⟨false, [], ("auto").data⟩

/-- Global flag parsing: boolean `debug`, string `bridge` and `color`
(a string flag without `=` consumes the following argument).  `help`
and `h` are unregistered and hit Go's built-in help special case.
The fuel argument is instantiated with the argument-list length, which
every path strictly exceeds the number of consumed tokens of. -/
def parseGlobalAux : Nat → GlobalCfg → List Str → Except Msg (GlobalCfg × List Str)
  | _, cfg, [] => Except.ok (cfg, [])
  | 0, cfg, as => Except.ok (cfg, as)
  | fuel + 1, cfg, s :: rest =>
    match flagTok s with
    | FlagTok.notFlag => Except.ok (cfg, s :: rest)
    | FlagTok.terminator => Except.ok (cfg, rest)
    | FlagTok.badTok a => Except.error (Msg.badFlagArg a)
    | FlagTok.named n v =>
      if n = ("debug").data then
        match v with
        | none => parseGlobalAux fuel { cfg with debug := true } rest
        | some val =>
          match parseBoolLit val with
          | some b => parseGlobalAux fuel { cfg with debug := b } rest
          | none => Except.error (Msg.invalidBoolValue n val)
      else if n = ("bridge").data then
        match v with
        | some val => parseGlobalAux fuel { cfg with bridge := val } rest
        | none =>
          match rest with
          | [] => Except.error (Msg.missingValue n)
          | val :: rest2 => parseGlobalAux fuel { cfg with bridge := val } rest2
      else if n = ("color").data then
        match v with
        | some val => parseGlobalAux fuel { cfg with colorMode := val } rest
        | none =>
          match rest with
          | [] => Except.error (Msg.missingValue n)
          | val :: rest2 => parseGlobalAux fuel { cfg with colorMode := val } rest2
      else if n = ("help").data ∨ n = ("h").data then Except.error Msg.usage
      else Except.error (Msg.flagNotDefined n)

/-- Line 293: colour is disabled unless the mode is `on`, whenever
TERM is empty or the mode is `off`. -/
def noColorOf (colorMode : Str) (termSet : Bool) : Bool :=
  colorMode ≠ ("on").data ∧ (¬ termSet ∨ colorMode = ("off").data)

/-- Lines 299-308: dispatch on the first remaining argument. -/
def dispatch (w : World) (bridge : Str) (rest : List Str) : RunRes :=
  match rest with
  | [] => usageRes
  | cmd :: rest2 =>
    if cmd = ("info").data then infoRun bridge w rest2
    else if cmd = ("help").data then helpRun bridge w rest2
    else if cmd = ("call").data then callRun bridge w rest2
    else usageRes

/-- A whole process run: the computed colour suppression plus the
command result. -/
structure MainRes where
  noColor : Bool
  run : RunRes
deriving DecidableEq, Repr

/-- Run of `main`: parse the global flags, set the colour mode, dispatch.
On a global flag-parse failure the process exits before the colour
logic, with `color.NoColor` still at its zero value. -/
def mainRun (w : World) (argv : List Str) : MainRes :=
  match parseGlobalAux argv.length cfg0 argv with
  | Except.error m => ⟨false, flagFailRes m⟩
  | Except.ok (cfg, rest) => ⟨noColorOf cfg.colorMode w.termSet, dispatch w cfg.bridge rest⟩

/-! ## Wire encoding of a call request.

The request framing itself lives in the external transport library and
is out of the repository's scope; the definition below records only
the contract the spec states for it. -/

/-- Modelled from the spec: the external transport's encoding of one
method-call request (spec section 4.3 and the collaborator interface
`Connection.Send`), in which absent parameters are omitted from the
encoded message rather than sent as an empty object. -/
def encodeRequest (method : Str) (params : Option Str) : Str :=
  (("\x7b\"method\":\"").data) ++ method ++ (("\"").data) ++
    (match params with
     | none => []
     | some p => ((",\"parameters\":").data) ++ p) ++
    (("\x7d").data)

/-! ## Shared concrete values for witnesses and counterexamples. -/

/-- A world in which every external operation succeeds. -/
def wOK : World :=
  { bridgeOk := true, dialOk := fun _ => true, sendOk := true,
    recvRes := RecvRes.ok [], getDesc := some [], getInfoOk := true, termSet := true }

/-- The spec's worked example URI. -/
def uriEx : Str := ("/run/sock/org.Foo.Bar").data

def addrEx : Str := ("/run/sock").data

def refEx : Str := ("org.Foo.Bar").data

/-- The spec's malformed parameter string. -/
def badJson : Str := ("\x7binvalid").data

/-- The literal empty-object parameter string. -/
def emptyObj : Str := ("\x7b\x7d").data

/-- The spec's worked structured-error name. -/
def errNameEx : Str := ("org.Foo.NotFound").data

/-- The spec's worked structured-error parameter payload. -/
def errParamsEx : Str := ("\x7b\"id\": 5\x7d").data

/-- An example bridge command. -/
def bridgeEx : Str := ("ssh remote").data

/-- A world whose reply accessor yields the worked structured error. -/
def wErr : World := { wOK with recvRes := RecvRes.verr errNameEx (some errParamsEx) }

/-- A world whose reply accessor yields a structured error with a
nil parameter payload. -/
def wErrNoParams : World := { wOK with recvRes := RecvRes.verr errNameEx none }

/-- A world whose reply accessor yields a structured error with a
malformed parameter payload. -/
def wErrBadParams : World := { wOK with recvRes := RecvRes.verr errNameEx (some badJson) }

/-- A world in which `GetInfo` fails. -/
def wInfoFail : World := { wOK with getInfoOk := false }

/-! ## Resolver lemmas. -/

theorem lastIndexOf_eq_none (c : Char) (s : Str) (h : c ∉ s) :
    lastIndexOf c s = none := by
  induction s with
  | nil => rfl
  | cons x xs ih =>
    have hx : ¬ x = c := by
      intro he
      exact h (by simp [he])
    have hxs : c ∉ xs := fun hm => h (List.mem_cons_of_mem _ hm)
    simp [lastIndexOf, ih hxs, hx]

theorem lastIndexOf_append (a b : Str) (h : ('/' : Char) ∉ b) :
    lastIndexOf '/' (a ++ '/' :: b) = some a.length := by
  induction a with
  | nil => simp [lastIndexOf, lastIndexOf_eq_none '/' b h]
  | cons x xs ih => simp [lastIndexOf, ih]

theorem splitLast_append (a b : Str) (h : ('/' : Char) ∉ b) :
    splitLast (a ++ '/' :: b) = some (a, b) := by
  have h1 : (a ++ '/' :: b).take a.length = a := List.take_left a ('/' :: b)
  have h2 : (a ++ '/' :: b).drop (a.length + 1) = b := by
    simp
  simp [splitLast, lastIndexOf_append a b h, h1, h2]

theorem splitLast_ne_nil (s : Str) (p : Str × Str) (h : splitLast s = some p) :
    s ≠ [] := by
  intro he
  subst he
  simp [splitLast, lastIndexOf] at h

/-! ## Flag-parsing lemmas. -/

theorem mkNamed_named (s : Str) (p : Str × Option Str) (n : Str) (v : Option Str)
    (h : mkNamed s p = FlagTok.named n v) : badName n = false := by
  by_cases hb : badName p.1 = true
  · rw [mkNamed, if_pos hb] at h
    cases h
  · rw [mkNamed, if_neg hb] at h
    injection h with h1 h2
    rw [← h1]
    simp only [Bool.not_eq_true] at hb
    exact hb

theorem flagTok_named_good (s n : Str) (v : Option Str)
    (h : flagTok s = FlagTok.named n v) : badName n = false := by
  rcases s with _ | ⟨c1, t⟩
  · cases h
  · rcases t with _ | ⟨c2, rest⟩
    · cases h
    · simp only [flagTok] at h
      by_cases h1 : c1 = '-'
      · rw [if_neg (not_not_intro h1)] at h
        by_cases h2 : c2 = '-'
        · rw [if_pos h2] at h
          by_cases h3 : rest = []
          · rw [if_pos h3] at h
            cases h
          · rw [if_neg h3] at h
            exact mkNamed_named _ _ _ _ h
        · rw [if_neg h2] at h
          exact mkNamed_named _ _ _ _ h
      · rw [if_pos h1] at h
        cases h

/-- Projection of a call-flag parse onto its oneway result; a parse
failure counts as oneway not selected. -/
def onewayFlagOf : Except Msg (Bool × Bool × List Str) → Bool
  | Except.ok (ow, _, _) => ow
  | Except.error _ => false

theorem parseCallAux_no_oneway (args : List Str) :
    ∀ hp : Bool, onewayFlagOf (parseCallAux false hp args) = false := by
  induction args with
  | nil => intro hp; rfl
  | cons s rest ih =>
    intro hp
    cases hft : flagTok s with
    | notFlag => simp [parseCallAux, hft, onewayFlagOf]
    | terminator => simp [parseCallAux, hft, onewayFlagOf]
    | badTok a => simp [parseCallAux, hft, onewayFlagOf]
    | named n v =>
      have hbad : badName n = false := flagTok_named_good s n v hft
      have hne : ¬ n = ("-oneway").data := by
        intro he
        rw [he] at hbad
        exact absurd hbad (by decide)
      simp only [parseCallAux, hft]
      rw [if_neg hne]
      by_cases hh : n = ("help").data
      · rw [if_pos hh]
        cases v with
        | none => simpa using ih true
        | some val =>
          cases hpb : parseBoolLit val with
          | none => simp [hpb, onewayFlagOf]
          | some b => simpa [hpb] using ih b
      · rw [if_neg hh]
        by_cases hh2 : n = ("h").data
        · rw [if_pos hh2]; rfl
        · rw [if_neg hh2]; rfl

/-! ## Global-flag lemmas for the debug-irrelevance claim. -/

/-- Projection of a global parse onto everything the rest of `main`
reads: the bridge string, the colour mode and the remaining
arguments.  The `debug` field is dropped. -/
def projG : Except Msg (GlobalCfg × List Str) → Except Msg (Str × Str × List Str)
  | Except.error m => Except.error m
  | Except.ok (cfg, rest) => Except.ok (cfg.bridge, cfg.colorMode, rest)

theorem parseGlobal_debug_step (n : Nat) (cfg : GlobalCfg) (rest : List Str) :
    parseGlobalAux (n + 1) cfg ((("--debug").data) :: rest)
      = parseGlobalAux n { cfg with debug := true } rest := rfl

theorem projG_debug_irrel (fuel : Nat) :
    ∀ (l : List Str) (c1 c2 : GlobalCfg), c1.bridge = c2.bridge →
      c1.colorMode = c2.colorMode →
      projG (parseGlobalAux fuel c1 l) = projG (parseGlobalAux fuel c2 l) := by
  induction fuel with
  | zero =>
    intro l c1 c2 hb hc
    cases l <;> simp [parseGlobalAux, projG, hb, hc]
  | succ n ih =>
    intro l c1 c2 hb hc
    cases l with
    | nil => simp [parseGlobalAux, projG, hb, hc]
    | cons s rest =>
      cases hft : flagTok s with
      | notFlag => simp [parseGlobalAux, hft, projG, hb, hc]
      | terminator => simp [parseGlobalAux, hft, projG, hb, hc]
      | badTok a => simp [parseGlobalAux, hft, projG]
      | named nm v =>
        simp only [parseGlobalAux, hft]
        by_cases hd : nm = ("debug").data
        · rw [if_pos hd, if_pos hd]
          cases v with
          | none => exact ih rest _ _ (by simpa using hb) (by simpa using hc)
          | some val =>
            cases hpb : parseBoolLit val with
            | none => simp [hpb, projG]
            | some b =>
              simp only [hpb]
              exact ih rest _ _ (by simpa using hb) (by simpa using hc)
        · rw [if_neg hd, if_neg hd]
          by_cases hbr : nm = ("bridge").data
          · rw [if_pos hbr, if_pos hbr]
            cases v with
            | some val => exact ih rest _ _ (by simp) (by simpa using hc)
            | none =>
              cases rest with
              | nil => simp [projG]
              | cons v2 rest2 => exact ih rest2 _ _ (by simp) (by simpa using hc)
          · rw [if_neg hbr, if_neg hbr]
            by_cases hco : nm = ("color").data
            · rw [if_pos hco, if_pos hco]
              cases v with
              | some val => exact ih rest _ _ (by simpa using hb) (by simp)
              | none =>
                cases rest with
                | nil => simp [projG]
                | cons v2 rest2 => exact ih rest2 _ _ (by simpa using hb) (by simp)
            · rw [if_neg hco, if_neg hco]

/-! ## Claims. -/

/-- C1 (counterexample): the claim states that with the oneway flag
set the reply-accessor step is skipped; in the code (line 128) `recv`
is invoked unconditionally after a successful send, so a concrete
oneway invocation's trace contains the reply-accessor call. -/
theorem c1_counterexample :
    Ev.recvCall ∈ (callBody [] wOK true uriEx []).trace := by decide

/-- C1 (amended): with the oneway flag set, the Oneway bit is set on
the single sent request, but the reply-accessor step is not skipped:
the accessor is invoked unconditionally after the send, and the
process exits 0 (printing the rendered reply to stdout) exactly when
the accessor returns without error, as the transport's oneway accessor
does immediately. -/
theorem c1_oneway_behavior (w : World) (a0 addr m v : Str)
    (hsplit : splitLast a0 = some (addr, m))
    (hdial : w.dialOk addr = true) (hsend : w.sendOk = true)
    (hrecv : w.recvRes = RecvRes.ok v) :
    callBody [] w true a0 []
      = ⟨[Ev.dial addr, Ev.send m none OnewayFlag, Ev.recvCall],
         [(Fd.out, Msg.rendered (some v))], 0⟩ := by
  have h0 : a0 ≠ [] := splitLast_ne_nil a0 (addr, m) hsplit
  simp [callBody, h0, hsplit, afterConn, afterParams, hdial, hsend, hrecv]

/-- C1 (witness): the amended behaviour at the example URI in the
all-success world. -/
theorem c1_witness :
    callBody [] wOK true uriEx []
      = ⟨[Ev.dial addrEx, Ev.send refEx none OnewayFlag, Ev.recvCall],
         [(Fd.out, Msg.rendered (some []))], 0⟩ :=
  c1_oneway_behavior wOK uriEx addrEx refEx [] (by decide) rfl rfl rfl

/-- C2 (counterexample): the claim states that a malformed JSON
parameter string fails before any connection is dialed; in the code
the dial (line 95) precedes parameter validation (line 108), so on a
concrete run with a malformed parameter string the trace contains the
dial event. -/
theorem c2_counterexample :
    (callBody [] wOK false uriEx badJson).trace = [Ev.dial addrEx]
      ∧ (callBody [] wOK false uriEx badJson).exit = 2 := by decide

/-- C2 (amended): a non-empty parameter string that is not valid JSON
makes the call fail with the encoding error and exit 2 before anything
is sent — the trace contains no send event — but only after the
connection has been established (direct dial or bridge connect). -/
theorem c2_invalid_params_rejected (bridge : Str) (w : World) (ow : Bool)
    (a0 a1 addr m : Str) (h1 : a1 ≠ []) (h2 : jsonValid a1 = false) :
    (bridge = [] → splitLast a0 = some (addr, m) → w.dialOk addr = true →
      callBody bridge w ow a0 a1 = ⟨[Ev.dial addr], [(Fd.err, Msg.cannotParseParams)], 2⟩)
    ∧ (bridge ≠ [] → w.bridgeOk = true →
      callBody bridge w ow a0 a1
        = ⟨[Ev.bridgeConnect bridge], [(Fd.err, Msg.cannotParseParams)], 2⟩) := by
  constructor
  · intro hb hsplit hdial
    subst hb
    have h0 : a0 ≠ [] := splitLast_ne_nil a0 (addr, m) hsplit
    simp [callBody, h0, hsplit, hdial, afterConn, h1, h2]
  · intro hb hok
    simp [callBody, hb, hok, afterConn, h1, h2]

/-- C2 (witness): the amended behaviour at the example URI and the
malformed parameter string. -/
theorem c2_witness :
    callBody [] wOK false uriEx badJson
      = ⟨[Ev.dial addrEx], [(Fd.err, Msg.cannotParseParams)], 2⟩ :=
  (c2_invalid_params_rejected [] wOK false uriEx badJson addrEx refEx
      (by decide) (by decide)).1 rfl (by decide) rfl

/-- C3 (counterexample): the claim states that `info` with no address
and no bridge exits with code 2; the code reaches `usage()` (line
249), which exits 1, so at the concrete empty invocation the exit code
is 1, not 2 (the no-connection part does hold: the trace is empty). -/
theorem c3_counterexample :
    (infoRun [] wOK []).exit = 1 ∧ ¬ (infoRun [] wOK []).exit = 2
      ∧ (infoRun [] wOK []).trace = [] := by decide

/-- C3 (amended): `info` invoked with no positional address and no
bridge fails with the missing-target diagnostic followed by the usage
text, exit code 1, before attempting any connection (empty trace), in
every world. -/
theorem c3_info_missing_target (w : World) :
    infoRun [] w [] = ⟨[], [(Fd.err, Msg.noAddress), (Fd.err, Msg.usage)], 1⟩ := rfl

/-- C4: the claim states that the call subcommand accepts `--oneway`
and that supplying it selects oneway mode.  The flag is registered
under the literal name `-oneway` (line 54), which Go flag syntax can
never match, so `--oneway` is rejected as not defined (with usage,
exit 1, before any connection), and no argument list whatsoever can
make the parsed oneway flag true. -/
theorem c4_oneway_unreachable :
    callRun [] wOK [("--oneway").data, uriEx]
        = ⟨[], [(Fd.err, Msg.flagNotDefined (("oneway").data)), (Fd.err, Msg.usage)], 1⟩
    ∧ ∀ args : List Str, onewayFlagOf (parseCallAux false false args) = false := by
  constructor
  · decide
  · intro args
    exact parseCallAux_no_oneway args false

/-- C5: with no bridge, the target resolver of the call path fails
with the invalid-address error (exit 2, nothing dialed) on every
non-empty slash-free argument, and splits every argument containing a
slash at its last slash into address and reference, as on the worked
example `/run/sock/org.Foo.Bar`. -/
theorem c5_resolver :
    (∀ (s : Str) (w : World) (a1 : Str), s ≠ [] → ('/' : Char) ∉ s →
      callBody [] w false s a1 = ⟨[], [(Fd.err, Msg.invalidAddress s)], 2⟩)
    ∧ (∀ a b : Str, ('/' : Char) ∉ b → splitLast (a ++ '/' :: b) = some (a, b))
    ∧ splitLast uriEx = some (addrEx, refEx) := by
  refine ⟨?_, ?_, by decide⟩
  · intro s w a1 hne hns
    have hsp : splitLast s = none := by
      simp [splitLast, lastIndexOf_eq_none '/' s hns]
    simp [callBody, hne, hsp]
  · intro a b hns
    exact splitLast_append a b hns

/-- C5 (witness): the slash-free failure at `org.Foo.Bar` and the
last-slash split at the worked example. -/
theorem c5_witness :
    callBody [] wOK false refEx [] = ⟨[], [(Fd.err, Msg.invalidAddress refEx)], 2⟩
      ∧ splitLast (addrEx ++ '/' :: refEx) = some (addrEx, refEx) :=
  ⟨c5_resolver.1 refEx wOK [] (by decide) (by decide),
   c5_resolver.2.1 addrEx refEx (by decide)⟩

/-- C6: with a non-empty bridge configured, no address splitting
happens: the call path sends the raw positional argument verbatim as
the method reference (no dial event), the help path requests the
description of the raw argument verbatim, and the info path's display
address is the literal `bridge:` concatenated with the bridge
command. -/
theorem c6_bridge_no_split (b : Str) (w : World) (a0 : Str)
    (hb : b ≠ []) (hok : w.bridgeOk = true) :
    (w.sendOk = true →
      (callBody b w false a0 []).trace
        = [Ev.bridgeConnect b, Ev.send a0 none 0, Ev.recvCall])
    ∧ (helpBody b w a0).trace = [Ev.bridgeConnect b, Ev.getDesc a0]
    ∧ (w.getInfoOk = false →
      (infoBody b w a0).outs = [(Fd.err, Msg.cannotGetInfo ((("bridge:").data) ++ b))]) := by
  refine ⟨?_, ?_, ?_⟩
  · intro hs
    cases hr : w.recvRes <;>
      simp [callBody, hb, hok, afterConn, afterParams, hs, hr]
  · cases hd : w.getDesc <;>
      simp [helpBody, hb, hok, afterHelpConn, hd]
  · intro hi
    simp [infoBody, hb, hok, afterInfoConn, hi]

/-- C6 (witness): the bridge-mode behaviour at the example bridge
command and the example URI-shaped raw argument. -/
theorem c6_witness :
    (callBody bridgeEx wOK false uriEx []).trace
        = [Ev.bridgeConnect bridgeEx, Ev.send uriEx none 0, Ev.recvCall]
    ∧ (infoBody bridgeEx wInfoFail []).outs
        = [(Fd.err, Msg.cannotGetInfo ((("bridge:").data) ++ bridgeEx))] :=
  ⟨(c6_bridge_no_split bridgeEx wOK uriEx (by decide) rfl).1 rfl,
   (c6_bridge_no_split bridgeEx wInfoFail [] (by decide) rfl).2.2 rfl⟩

/-- C7: an empty parameter string is sent as absent (nil) parameters,
while the literal `\x7b\x7d` parameter string is sent as present
parameters, and the two produce different encoded requests for every
method name. -/
theorem c7_params_absent_distinct :
    (∀ (b : Str) (w : World) (a0 : Str), b ≠ [] → w.bridgeOk = true → w.sendOk = true →
      (callBody b w false a0 []).trace
          = [Ev.bridgeConnect b, Ev.send a0 none 0, Ev.recvCall]
        ∧ (callBody b w false a0 emptyObj).trace
          = [Ev.bridgeConnect b, Ev.send a0 (some emptyObj) 0, Ev.recvCall])
    ∧ ∀ m : Str, encodeRequest m none ≠ encodeRequest m (some emptyObj) := by
  constructor
  · intro b w a0 hb hok hs
    have hv : jsonValid emptyObj = true := by decide
    have hno : emptyObj ≠ [] := by decide
    constructor
    · cases hr : w.recvRes <;>
        simp [callBody, hb, hok, afterConn, afterParams, hs, hr]
    · cases hr : w.recvRes <;>
        simp [callBody, hb, hok, afterConn, afterParams, hs, hr, hv, hno]
  · intro m h
    have hl := congrArg List.length h
    simp [encodeRequest, emptyObj] at hl

/-- C7 (witness): the two send events at the example bridge and
method, and the two distinct encoded requests at the example method. -/
theorem c7_witness :
    (callBody bridgeEx wOK false refEx []).trace
        = [Ev.bridgeConnect bridgeEx, Ev.send refEx none 0, Ev.recvCall]
    ∧ (callBody bridgeEx wOK false refEx emptyObj).trace
        = [Ev.bridgeConnect bridgeEx, Ev.send refEx (some emptyObj) 0, Ev.recvCall]
    ∧ encodeRequest refEx none ≠ encodeRequest refEx (some emptyObj) :=
  ⟨(c7_params_absent_distinct.1 bridgeEx wOK refEx (by decide) rfl rfl).1,
   (c7_params_absent_distinct.1 bridgeEx wOK refEx (by decide) rfl rfl).2,
   c7_params_absent_distinct.2 refEx⟩

/-- C8: a structured remote error is reported entirely on the
diagnostic stream — the name (in the attention colour) followed by its
parameters rendered the same way as a success payload — with exit
code 2 and nothing on the primary stream, while a successful reply is
rendered to the primary stream with exit code 0. -/
theorem c8_error_streams (b : Str) (w : World) (a0 nm raw v : Str)
    (hb : b ≠ []) (hok : w.bridgeOk = true) (hs : w.sendOk = true) :
    (w.recvRes = RecvRes.verr nm (some raw) → jsonValidObj raw = true →
      (callBody b w false a0 []).outs
          = [(Fd.err, Msg.callFailed nm), (Fd.err, Msg.rendered (some raw))]
        ∧ (callBody b w false a0 []).exit = 2
        ∧ ∀ p ∈ (callBody b w false a0 []).outs, p.1 = Fd.err)
    ∧ (w.recvRes = RecvRes.ok v →
      (callBody b w false a0 []).outs = [(Fd.out, Msg.rendered (some v))]
        ∧ (callBody b w false a0 []).exit = 0) := by
  constructor
  · intro hr hobj
    simp [callBody, hb, hok, afterConn, afterParams, hs, hr, hobj]
  · intro hr
    simp [callBody, hb, hok, afterConn, afterParams, hs, hr]

/-- C8 (witness): the worked structured error
`org.Foo.NotFound` with parameters `id 5` at the example bridge, and a
successful reply in the all-success world. -/
theorem c8_witness :
    ((callBody bridgeEx wErr false refEx []).outs
        = [(Fd.err, Msg.callFailed errNameEx), (Fd.err, Msg.rendered (some errParamsEx))]
      ∧ (callBody bridgeEx wErr false refEx []).exit = 2)
    ∧ ((callBody bridgeEx wOK false refEx []).outs = [(Fd.out, Msg.rendered (some []))]
      ∧ (callBody bridgeEx wOK false refEx []).exit = 0) :=
  ⟨⟨((c8_error_streams bridgeEx wErr refEx errNameEx errParamsEx []
        (by decide) rfl rfl).1 rfl (by decide)).1,
    ((c8_error_streams bridgeEx wErr refEx errNameEx errParamsEx []
        (by decide) rfl rfl).1 rfl (by decide)).2.1⟩,
   (c8_error_streams bridgeEx wOK refEx errNameEx errParamsEx []
        (by decide) rfl rfl).2 rfl⟩

/-- C9: a structured remote error whose parameter payload is absent
(nil pointer) or malformed is tolerated: the run still reports the
error name on the diagnostic stream and exits 2; an absent payload
prints nothing further, a malformed one is downgraded to the rendering
of no parameters instead of becoming a decode failure. -/
theorem c9_error_params_tolerated (b : Str) (w : World) (a0 nm : Str) (rp : Option Str)
    (hb : b ≠ []) (hok : w.bridgeOk = true) (hs : w.sendOk = true)
    (hr : w.recvRes = RecvRes.verr nm rp) :
    (callBody b w false a0 []).exit = 2
    ∧ (Fd.err, Msg.callFailed nm) ∈ (callBody b w false a0 []).outs
    ∧ (rp = none → (callBody b w false a0 []).outs = [(Fd.err, Msg.callFailed nm)])
    ∧ (∀ raw : Str, rp = some raw → jsonValidObj raw = false →
        (callBody b w false a0 []).outs
          = [(Fd.err, Msg.callFailed nm), (Fd.err, Msg.rendered none)]) := by
  cases rp with
  | none =>
    simp [callBody, hb, hok, afterConn, afterParams, hs, hr]
  | some raw =>
    by_cases hv : jsonValidObj raw = true <;>
      simp [callBody, hb, hok, afterConn, afterParams, hs, hr, hv]

/-- C9 (witness): the absent-payload and malformed-payload errors at
the example bridge both exit 2 after reporting the error name. -/
theorem c9_witness :
    ((callBody bridgeEx wErrNoParams false refEx []).exit = 2
      ∧ (callBody bridgeEx wErrNoParams false refEx []).outs
          = [(Fd.err, Msg.callFailed errNameEx)])
    ∧ ((callBody bridgeEx wErrBadParams false refEx []).exit = 2
      ∧ (callBody bridgeEx wErrBadParams false refEx []).outs
          = [(Fd.err, Msg.callFailed errNameEx), (Fd.err, Msg.rendered none)]) :=
  ⟨⟨(c9_error_params_tolerated bridgeEx wErrNoParams refEx errNameEx none
        (by decide) rfl rfl rfl).1,
    (c9_error_params_tolerated bridgeEx wErrNoParams refEx errNameEx none
        (by decide) rfl rfl rfl).2.2.1 rfl⟩,
   ⟨(c9_error_params_tolerated bridgeEx wErrBadParams refEx errNameEx (some badJson)
        (by decide) rfl rfl rfl).1,
    (c9_error_params_tolerated bridgeEx wErrBadParams refEx errNameEx (some badJson)
        (by decide) rfl rfl rfl).2.2.2 badJson rfl (by decide)⟩⟩

/-- C10: the global `--debug` flag has no effect: for every world and
every command line, the run with `--debug` prepended is identical —
same events, same output on both streams, same exit code, same colour
suppression — to the run without it. -/
theorem c10_debug_no_effect (w : World) (argv : List Str) :
    mainRun w ((("--debug").data) :: argv) = mainRun w argv := by
  unfold mainRun
  have hlen : ((("--debug").data) :: argv).length = argv.length + 1 := rfl
  rw [hlen, parseGlobal_debug_step]
  have hp := projG_debug_irrel argv.length argv { cfg0 with debug := true } cfg0 rfl rfl
  cases h1 : parseGlobalAux argv.length { cfg0 with debug := true } argv with
  | error m =>
    cases h2 : parseGlobalAux argv.length cfg0 argv with
    | error m2 =>
      rw [h1, h2] at hp
      simp only [projG, Except.error.injEq] at hp
      rw [hp]
    | ok p =>
      rw [h1, h2] at hp
      simp [projG] at hp
  | ok p =>
    cases h2 : parseGlobalAux argv.length cfg0 argv with
    | error m2 =>
      rw [h1, h2] at hp
      simp [projG] at hp
    | ok p2 =>
      rw [h1, h2] at hp
      simp only [projG, Except.ok.injEq, Prod.mk.injEq] at hp
      obtain ⟨hbr, hco, hrest⟩ := hp
      simp [hbr, hco, hrest]

end VarlinkCmd
